import Mathlib

/-!
Verification of the ptt-box PTT coordination server (`stream_server.py`,
`vt_client.py`) against its natural-language specification.

The Python source is shallowly embedded: the `PTTManager` floor arbiter
becomes a record with explicit state passing, wall-clock times become
rationals, fallible operations return `Option`, and the regex/string
routines used by the server are translated into executable character-list
scanners with the exact matching semantics of the Python patterns they
replace.
-/

/-! ## Floor arbiter state (`PTTManager`, stream_server.py lines 81-140)

`ClientConnection` keeps only the data-carrying fields; the live handles
(websocket, peer connection, audio track) have no shallow embedding and no
claim mentions them. -/

structure ClientConn where
  client_id : String
  display_name : String
  is_monitor : Bool := false
deriving DecidableEq, Repr

/-- State of `PTTManager`: `current_speaker`, `speaker_start_time`,
`max_transmit_time` and the `clients` registry (a Python dict, embedded as
an association list keyed by client id). Times are rationals. -/
structure PTTState where
  current_speaker : Option String
  speaker_start_time : Option ℚ
  max_transmit_time : ℚ
  clients : List (String × ClientConn)
deriving DecidableEq, Repr

/-- `PTTManager.__init__`: idle floor, no clients; the timeout bound is the
`PTT_TIMEOUT` configuration value, taken as a parameter. -/
def initState (maxT : ℚ) : PTTState :=
  { current_speaker := none
    speaker_start_time := none
    max_transmit_time := maxT
    clients := [] }

/-- `PTTManager.request_floor` (lines 102-110): if `current_speaker is None`
grab the floor, recording the requester and the current time, and return
`True`; otherwise leave the state alone and return `False`. -/
def request_floor (client_id : String) (now : ℚ) (st : PTTState) :
    Bool × PTTState :=
  if st.current_speaker = none then
    (true, { st with current_speaker := some client_id
                     speaker_start_time := some now })
  else
    (false, st)

/-- `PTTManager.release_floor` (lines 112-119): clear the floor only when the
caller is the current owner. -/
def release_floor (client_id : String) (st : PTTState) : Bool × PTTState :=
  if st.current_speaker = some client_id then
    (true, { st with current_speaker := none, speaker_start_time := none })
  else
    (false, st)

/-- `PTTManager.check_timeout` (lines 121-131). The Python guard
`if self.current_speaker and self.speaker_start_time` tests truthiness, so
besides being set the speaker must be a non-empty string and the start time
non-zero; the embedding keeps that exact test. On timeout
(`now - since > max_transmit_time`, strictly) the owner is cleared and its
id returned. -/
def check_timeout (now : ℚ) (st : PTTState) : Option String × PTTState :=
  match st.current_speaker, st.speaker_start_time with
  | some cid, some t0 =>
    if cid ≠ "" ∧ t0 ≠ 0 then
      if now - t0 > st.max_transmit_time then
        (some cid, { st with current_speaker := none
                             speaker_start_time := none })
      else (none, st)
    else (none, st)
  | _, _ => (none, st)

/-- `PTTManager.get_speaker_name` (lines 133-140): `None` when idle,
`"PC Mic"` for the reserved `pc_mic` owner, the registered display name when
the owner is a known client, and the raw id otherwise. -/
def get_speaker_name (st : PTTState) : Option String :=
  match st.current_speaker with
  | none => none
  | some cid =>
    if cid = "pc_mic" then some "PC Mic"
    else
      match st.clients.lookup cid with
      | some c => some c.display_name
      | none => some cid

/-! ## Arbiter operation traces (claim C1) -/

/-- One serialized arbiter operation. -/
inductive ArbOp
  | request (client_id : String) (now : ℚ)
  | release (client_id : String)
  | tick (now : ℚ)
deriving DecidableEq, Repr

/-- Apply one arbiter operation, keeping only the state component. -/
def applyArbOp (op : ArbOp) (st : PTTState) : PTTState :=
  match op with
  | .request cid now => (request_floor cid now st).2
  | .release cid => (release_floor cid st).2
  | .tick now => (check_timeout now st).2

/-- State after a sequence of arbiter operations from the initial state. -/
def runArbOps (maxT : ℚ) (ops : List ArbOp) : PTTState :=
  ops.foldl (fun st op => applyArbOp op st) (initState maxT)

/-- C1. At every instant the arbiter has at most one owner: after any
sequence of `request_floor` / `release_floor` / `check_timeout` operations
from the initially idle manager, `current_speaker` is `none` or exactly one
client id, and the next operation makes some `c` the owner only if `c`
already owned the floor or the operation is a `request_floor` by `c` issued
while the floor was `none`. -/
theorem ptt_single_speaker (maxT : ℚ) (ops : List ArbOp) (op : ArbOp)
    (c : String) :
    (∀ a b, (runArbOps maxT ops).current_speaker = some a →
      (runArbOps maxT ops).current_speaker = some b → a = b) ∧
    ((applyArbOp op (runArbOps maxT ops)).current_speaker = some c →
      (runArbOps maxT ops).current_speaker = some c ∨
      ((runArbOps maxT ops).current_speaker = none ∧
        ∃ t, op = ArbOp.request c t)) := by
  constructor
  · intro a b ha hb
    rw [ha] at hb
    exact Option.some.inj hb
  · generalize runArbOps maxT ops = st
    intro hc
    cases op with
    | request cid now =>
      by_cases hidle : st.current_speaker = none
      · right
        simp only [applyArbOp, request_floor, if_pos hidle] at hc
        have hcc : cid = c := by simpa using hc
        exact ⟨hidle, now, by rw [hcc]⟩
      · simp only [applyArbOp, request_floor, if_neg hidle] at hc
        exact Or.inl hc
    | release cid =>
      by_cases hrel : st.current_speaker = some cid
      · simp only [applyArbOp, release_floor, if_pos hrel] at hc
        simp at hc
      · simp only [applyArbOp, release_floor, if_neg hrel] at hc
        exact Or.inl hc
    | tick now =>
      left
      obtain ⟨sp, start, m, cls⟩ := st
      simp only [applyArbOp, check_timeout] at hc ⊢
      cases sp with
      | none => exact hc
      | some cid =>
        cases start with
        | none => exact hc
        | some t0 =>
          dsimp only at hc
          by_cases hg : cid ≠ "" ∧ t0 ≠ 0
          · rw [if_pos hg] at hc
            by_cases ht : now - t0 > m
            · rw [if_pos ht] at hc
              simp at hc
            · rw [if_neg ht] at hc
              exact hc
          · rw [if_neg hg] at hc
            simpa using hc

/-- Witness: a `request_floor` applied to the initially idle manager sets the
owner to the requester, and the theorem attributes that to a request made
while the floor was `none`. -/
theorem ptt_single_speaker_witness :
    (applyArbOp (ArbOp.request "aaaa1111" 1) (runArbOps 30 [])).current_speaker
        = some "aaaa1111" ∧
    ((runArbOps 30 []).current_speaker = some "aaaa1111" ∨
      ((runArbOps 30 []).current_speaker = none ∧
        ∃ t, ArbOp.request "aaaa1111" 1 = ArbOp.request "aaaa1111" t)) :=
  ⟨by decide,
    (ptt_single_speaker 30 [] (ArbOp.request "aaaa1111" 1) "aaaa1111").2
      (by decide)⟩

/-! ## PTT request handling over the control channel (claim C2)

`StreamServer.handle_websocket`, `ptt_request` branch (lines 863-873): a
granted request answers `ptt_granted` and broadcasts the new floor status; a
denied request answers `ptt_denied` carrying the current speaker id and its
display name. -/

/-- Python truthiness of `Optional[str]`: `None` and the empty string are
falsy. -/
def pyTruthyId : Option String → Bool
  | none => false
  | some s => !(s = "")

/-- Broadcast messages relevant to the floor: the `ptt_status` payload
(`broadcast_ptt_status`, lines 651-663) and the `client_left` notification
(`broadcast_client_left`, lines 700-710). -/
inductive Broadcast
  | status (state : String) (speaker : Option String)
      (speakerName : Option String)
  | left (clientId : String)
deriving DecidableEq, Repr

/-- The `ptt_status` payload assembled by `broadcast_ptt_status`:
`state` is `"transmitting"` when `current_speaker` is truthy, else
`"idle"`; `speaker` and `speakerName` are read from the manager. -/
def statusBroadcast (st : PTTState) : Broadcast :=
  .status (if pyTruthyId st.current_speaker then "transmitting" else "idle")
    st.current_speaker (get_speaker_name st)

/-- Reply sent to the requesting client itself. -/
inductive PttReply
  | granted
  | denied (speaker : Option String) (speakerName : Option String)
deriving DecidableEq, Repr

/-- The `ptt_request` branch of `handle_websocket`: call
`request_floor`; on success send `ptt_granted` and broadcast the status, on
failure send `ptt_denied` with the current speaker and its name. Returns
(new state, reply to requester, optional broadcast). -/
def handle_ptt_request (client_id : String) (now : ℚ) (st : PTTState) :
    PTTState × PttReply × Option Broadcast :=
  let r := request_floor client_id now st
  if r.1 then
    (r.2, .granted, some (statusBroadcast r.2))
  else
    (r.2, .denied r.2.current_speaker (get_speaker_name r.2), none)

/-- C2. A floor request on an idle floor atomically sets the owner to the
requester, records the start time, and replies `ptt_granted`; a request
while some owner holds leaves the state unchanged and replies `ptt_denied`
carrying the owner's id and — when the owner is a registered, non-`pc_mic`
client — its display name. -/
theorem ptt_request_grant_deny (st : PTTState) (client_id : String)
    (now : ℚ) :
    (st.current_speaker = none →
      handle_ptt_request client_id now st =
        ({ st with current_speaker := some client_id
                   speaker_start_time := some now },
          PttReply.granted,
          some (statusBroadcast
            { st with current_speaker := some client_id
                      speaker_start_time := some now }))) ∧
    (∀ owner, st.current_speaker = some owner →
      handle_ptt_request client_id now st =
        (st, PttReply.denied (some owner) (get_speaker_name st), none)) ∧
    (∀ owner cl, st.current_speaker = some owner → owner ≠ "pc_mic" →
      st.clients.lookup owner = some cl →
      get_speaker_name st = some cl.display_name) := by
  refine ⟨?_, ?_, ?_⟩
  · intro hidle
    simp [handle_ptt_request, request_floor, if_pos hidle]
  · intro owner howner
    have hne : ¬ st.current_speaker = none := by rw [howner]; simp
    simp [handle_ptt_request, request_floor, if_neg hne, howner]
  · intro owner cl howner hpc hcl
    simp only [get_speaker_name, howner, if_neg hpc, hcl]

/-- Witness for C2: with owner `own11111` (display name `Client-own1`)
holding the floor, a request by `bbbb2222` is denied with that id and
name. -/
theorem ptt_request_grant_deny_witness :
    handle_ptt_request "bbbb2222" 2
        { current_speaker := some "own11111"
          speaker_start_time := some 1
          max_transmit_time := 30
          clients := [("own11111",
            { client_id := "own11111", display_name := "Client-own1" })] } =
      ({ current_speaker := some "own11111"
         speaker_start_time := some 1
         max_transmit_time := 30
         clients := [("own11111",
           { client_id := "own11111", display_name := "Client-own1" })] },
        PttReply.denied (some "own11111") (some "Client-own1"), none) := by
  have h := (ptt_request_grant_deny
    { current_speaker := some "own11111"
      speaker_start_time := some 1
      max_transmit_time := 30
      clients := [("own11111",
        { client_id := "own11111", display_name := "Client-own1" })] }
    "bbbb2222" 2).2.1 "own11111" (by decide)
  have hname := (ptt_request_grant_deny
    { current_speaker := some "own11111"
      speaker_start_time := some 1
      max_transmit_time := 30
      clients := [("own11111",
        { client_id := "own11111", display_name := "Client-own1" })] }
    "bbbb2222" 2).2.2 "own11111"
    { client_id := "own11111", display_name := "Client-own1" }
    (by decide) (by decide) (by decide)
  rw [h, hname]


/-! ## Timeout revocation (claim C3)

`check_timeout` together with `StreamServer.ptt_timeout_checker`
(lines 950-956), which wakes every second and calls it. -/

/-- C3. (i) When an owner is set (a non-empty id, with a non-zero start
time, as every reachable owner is) and `now − since` strictly exceeds
`max_transmit_time`, `check_timeout` returns the owner and clears the
floor; if the elapsed time does not exceed the bound, or no owner or start
time is set, it returns `none` and leaves the state unchanged.
(ii) With the checker ticking at times `c, c+1, c+2, …` (1 Hz) and some
tick at or before the deadline `t₀ + max_transmit_time`, there is a tick
time `t₁ ≤ t₀ + max_transmit_time + 1` at which `check_timeout` revokes a
grant made at `t₀`, so the arbiter reports idle within
`max_transmit_time + 1` seconds of the grant. -/
theorem check_timeout_spec (st : PTTState) (now : ℚ) :
    (∀ cid t0, st.current_speaker = some cid → cid ≠ "" →
      st.speaker_start_time = some t0 → t0 ≠ 0 →
      (now - t0 > st.max_transmit_time →
        check_timeout now st =
          (some cid, { st with current_speaker := none
                               speaker_start_time := none })) ∧
      (¬ now - t0 > st.max_transmit_time →
        check_timeout now st = (none, st))) ∧
    ((st.current_speaker = none ∨ st.speaker_start_time = none) →
      check_timeout now st = (none, st)) ∧
    (∀ cid t0 c, st.current_speaker = some cid → cid ≠ "" →
      st.speaker_start_time = some t0 → t0 ≠ 0 →
      c ≤ t0 + st.max_transmit_time →
      ∃ n : ℕ, c + n ≤ t0 + st.max_transmit_time + 1 ∧
        check_timeout (c + n) st =
          (some cid, { st with current_speaker := none
                               speaker_start_time := none })) := by
  obtain ⟨sp, start, m, cls⟩ := st
  refine ⟨?_, ?_, ?_⟩
  · rintro cid t0 rfl hcid rfl ht0
    dsimp only [check_timeout]
    rw [if_pos ⟨hcid, ht0⟩]
    constructor
    · intro hlate
      rw [if_pos hlate]
    · intro hearly
      rw [if_neg hearly]
  · rintro (h | h) <;> simp_all [check_timeout]
  · rintro cid t0 c rfl hcid rfl ht0 hc
    dsimp only at hc ⊢
    set q : ℚ := t0 + m - c with hq
    have hq0 : 0 ≤ q := by rw [hq]; linarith
    have hfl0 : 0 ≤ ⌊q⌋ := Int.floor_nonneg.mpr hq0
    refine ⟨(⌊q⌋ + 1).toNat, ?_, ?_⟩
    · have hcast : ((((⌊q⌋ + 1).toNat : ℤ)) : ℚ) = (⌊q⌋ : ℚ) + 1 := by
        rw [Int.toNat_of_nonneg (by omega)]
        push_cast
        ring
      have : ((⌊q⌋ + 1).toNat : ℚ) = (⌊q⌋ : ℚ) + 1 := by
        exact_mod_cast hcast
      rw [this]
      have := Int.floor_le q
      linarith
    · have hcast : ((⌊q⌋ + 1).toNat : ℚ) = (⌊q⌋ : ℚ) + 1 := by
        have := Int.toNat_of_nonneg (show (0:ℤ) ≤ ⌊q⌋ + 1 by omega)
        exact_mod_cast congrArg (fun z : ℤ => (z : ℚ)) this
      have hlate : c + ((⌊q⌋ + 1).toNat : ℚ) - t0 > m := by
        rw [hcast]
        have := Int.lt_floor_add_one q
        have hqlt : q < (⌊q⌋ : ℚ) + 1 := this
        rw [hq] at hqlt
        linarith
      dsimp only [check_timeout]
      rw [if_pos ⟨hcid, ht0⟩, if_pos hlate]

/-- Witness for C3: owner `aaaa1111` granted at `t₀ = 5` with a 30 s bound
and checker ticks at `0, 1, 2, …` is revoked at some tick `t₁ ≤ 36`. -/
theorem check_timeout_spec_witness :
    ∃ n : ℕ, (0 : ℚ) + n ≤ 5 + 30 + 1 ∧
      check_timeout ((0 : ℚ) + n)
          { current_speaker := some "aaaa1111", speaker_start_time := some 5
            max_transmit_time := 30, clients := [] } =
        (some "aaaa1111",
          { current_speaker := none, speaker_start_time := none
            max_transmit_time := 30, clients := [] }) :=
  (check_timeout_spec
      { current_speaker := some "aaaa1111", speaker_start_time := some 5
        max_transmit_time := 30, clients := [] } 0).2.2
    "aaaa1111" 5 0 (by decide) (by decide) (by decide) (by decide)
    (by norm_num)

/-! ## Floor release on disconnect (claim C4)

The `finally` block of `handle_websocket` (lines 919-932): release the
floor if held, broadcast `ptt_status` only when the release happened,
then broadcast `client_left` and drop the client from the registry. -/

/-- Teardown path of a client's control channel, returning the new state
and the broadcasts it emits, in emission order. -/
def teardown (client_id : String) (st : PTTState) :
    PTTState × List Broadcast :=
  let r := release_floor client_id st
  let statusMsgs := if r.1 then [statusBroadcast r.2] else []
  let st' := { r.2 with clients := r.2.clients.filter (·.1 ≠ client_id) }
  (st', statusMsgs ++ [Broadcast.left client_id])

/-- C4. If the disconnecting client holds the floor, the teardown path
clears the floor first and only then emits the `ptt_status` broadcast, so
the status it carries is computed from the released state: it reads
`idle` with no speaker, and it precedes the `client_left` notification. -/
theorem teardown_releases_before_status (st : PTTState) (client_id : String)
    (h : st.current_speaker = some client_id) :
    teardown client_id st =
      ({ st with current_speaker := none, speaker_start_time := none
                 clients := st.clients.filter (·.1 ≠ client_id) },
        [Broadcast.status "idle" none none, Broadcast.left client_id]) := by
  simp only [teardown, release_floor, if_pos h]
  rfl

/-- Witness for C4: a concrete owner disconnecting while holding the
floor. -/
theorem teardown_releases_before_status_witness :
    teardown "own11111"
        { current_speaker := some "own11111", speaker_start_time := some 3
          max_transmit_time := 30
          clients := [("own11111",
            { client_id := "own11111", display_name := "Client-own1" })] } =
      ({ current_speaker := none, speaker_start_time := none
         max_transmit_time := 30, clients := [] },
        [Broadcast.status "idle" none none, Broadcast.left "own11111"]) := by
  rw [teardown_releases_before_status _ _ (by decide)]
  decide

/-! ## P2P signaling relay (claim C5)

`handle_websocket`, `p2p_offer` / `p2p_answer` / `p2p_ice_candidate`
branches (lines 880-911): look the target session up by the message's
`to` field; if present, send a message whose `from` field is the sender's
id and whose payload (`sdp` / `candidate`) is taken from the incoming
message; if absent, do nothing. -/

/-- JSON values as far as the relay needs them. -/
inductive JVal
  | str (s : String)
  | num (n : Int)
  | null
  | obj (fields : List (String × JVal))

/-- A JSON object, embedded as an association list (Python dicts from
`json.loads` have unique keys). -/
abbrev JObj := List (String × JVal)

/-- Result of the relay branches: forward a payload to a target session,
silently drop, fall through to another message type, or raise (a missing
`sdp` key is a `KeyError`, which aborts the sender's receive loop). -/
inductive RelayResult
  | forward (target : String) (payload : JObj)
  | drop
  | ignored
  | sessionError

/-- The three routed-message branches of `handle_websocket`. `clients` is
`self.ptt_manager.clients`; the target is `clients.get(data.get("to"))`. -/
def route_p2p (clients : List (String × ClientConn)) (sender : String)
    (data : JObj) : RelayResult :=
  match data.lookup "type" with
  | some (.str t) =>
    if t = "p2p_offer" ∨ t = "p2p_answer" then
      match data.lookup "to" with
      | some (.str target) =>
        if (clients.lookup target).isSome then
          match data.lookup "sdp" with
          | some v =>
            .forward target [("type", .str t), ("from", .str sender),
              ("sdp", v)]
          | none => .sessionError
        else .drop
      | _ => .drop
    else if t = "p2p_ice_candidate" then
      match data.lookup "to" with
      | some (.str target) =>
        if (clients.lookup target).isSome then
          .forward target [("type", .str t), ("from", .str sender),
            ("candidate", (data.lookup "candidate").getD .null)]
        else .drop
      | _ => .drop
    else .ignored
  | _ => .ignored

/-- The rewriting the claim describes: the message as the sender sent it,
with the `to` entry replaced in place by a `from` entry holding the
sender's id. -/
def rewriteToFrom (sender : String) (data : JObj) : JObj :=
  data.map (fun p => if p.1 = "to" then ("from", JVal.str sender) else p)

/-- C5. For a routed signaling envelope (exactly the protocol fields:
`type`, `to`, and `sdp` or `candidate`): when a session with the target id
exists the target receives the identical message except that the `to`
entry is rewritten in place to `from = sender`; when no such session
exists the message is dropped and nothing is sent. -/
theorem p2p_relay_spec (clients : List (String × ClientConn))
    (sender target : String) (t : String) (v : JVal) :
    ((t = "p2p_offer" ∨ t = "p2p_answer") →
      (((clients.lookup target).isSome →
        route_p2p clients sender
            [("type", .str t), ("to", .str target), ("sdp", v)] =
          .forward target (rewriteToFrom sender
            [("type", .str t), ("to", .str target), ("sdp", v)])) ∧
      ((clients.lookup target) = none →
        route_p2p clients sender
            [("type", .str t), ("to", .str target), ("sdp", v)] =
          .drop))) ∧
    ((((clients.lookup target).isSome →
        route_p2p clients sender
            [("type", .str t), ("to", .str target), ("candidate", v)] =
          .forward target (rewriteToFrom sender
            [("type", .str t), ("to", .str target), ("candidate", v)])) ∧
      ((clients.lookup target) = none →
        route_p2p clients sender
            [("type", .str t), ("to", .str target), ("candidate", v)] =
          .drop)) ∨ t ≠ "p2p_ice_candidate") := by
  constructor
  · intro ht
    constructor
    · intro hsome
      rcases Option.isSome_iff_exists.mp hsome with ⟨c, hc⟩
      rcases ht with rfl | rfl <;>
        simp [route_p2p, rewriteToFrom, hc, List.lookup]
    · intro hnone
      rcases ht with rfl | rfl <;>
        simp [route_p2p, hnone, List.lookup]
  · by_cases hice : t = "p2p_ice_candidate"
    · left
      subst hice
      constructor
      · intro hsome
        rcases Option.isSome_iff_exists.mp hsome with ⟨c, hc⟩
        simp [route_p2p, rewriteToFrom, hc, List.lookup]
      · intro hnone
        simp [route_p2p, hnone, List.lookup]
    · right
      exact hice

/-- Witness for C5: an offer routed from `aaaa1111` to the connected
session `bbbb2222` is forwarded with `from` rewritten; routing to the
absent id `cccc3333` is dropped. -/
theorem p2p_relay_spec_witness :
    route_p2p
        [("bbbb2222",
          { client_id := "bbbb2222", display_name := "Client-bbbb" })]
        "aaaa1111"
        [("type", .str "p2p_offer"), ("to", .str "bbbb2222"),
          ("sdp", .str "v=0")] =
      .forward "bbbb2222" (rewriteToFrom "aaaa1111"
        [("type", .str "p2p_offer"), ("to", .str "bbbb2222"),
          ("sdp", .str "v=0")]) ∧
    route_p2p [] "aaaa1111"
        [("type", .str "p2p_offer"), ("to", .str "cccc3333"),
          ("sdp", .str "v=0")] =
      .drop :=
  ⟨((p2p_relay_spec
      [("bbbb2222",
        { client_id := "bbbb2222", display_name := "Client-bbbb" })]
      "aaaa1111" "bbbb2222" "p2p_offer" (.str "v=0")).1
      (Or.inl rfl)).1 (by decide),
    ((p2p_relay_spec [] "aaaa1111" "cccc3333" "p2p_offer"
      (.str "v=0")).1 (Or.inl rfl)).2 (by decide)⟩

/-! ## String scanning helpers

Executable embeddings of the Python string and `re` operations the server
uses, on `List Char`. Each models exactly the construct named in its
doc comment. -/

/-- Strip an expected literal from the front: `some rest` when `s` starts
with `p`. -/
def stripPre : List Char → List Char → Option (List Char)
  | [], s => some s
  | _ :: _, [] => none
  | p :: ps, c :: cs => if p = c then stripPre ps cs else none

/-- Maximal leading run of decimal digits and the remainder (the regex
`\d+` / `\d*` at the current position; greedy, as in `re`). -/
def takeDigits : List Char → List Char × List Char
  | [] => ([], [])
  | c :: cs =>
    if c.isDigit then
      let r := takeDigits cs
      (c :: r.1, r.2)
    else ([], c :: cs)

/-- Numeric value of a digit string (most significant first). -/
def digitsVal (s : List Char) : Nat :=
  s.foldl (fun a c => 10 * a + (c.toNat - 48)) 0

/-- Maximal leading run of non-newline characters and the remainder (the
regex `(.+)` group: `.` matches everything except `\n`, including `\r`). -/
def takeLine : List Char → List Char × List Char
  | [] => ([], [])
  | c :: cs =>
    if c = '\n' then ([], c :: cs)
    else
      let r := takeLine cs
      (c :: r.1, r.2)

/-- Python `str.split(sep)` for a one-character separator: empty pieces are
kept, and splitting the empty string gives `[""]`. -/
def pySplitOn (sep : Char) : List Char → List (List Char)
  | [] => [[]]
  | c :: cs =>
    match pySplitOn sep cs with
    | [] => [[]]
    | w :: ws => if c = sep then [] :: w :: ws else (c :: w) :: ws

/-- The whitespace class of Python `str.split()` with no argument. -/
def pyIsSpace (c : Char) : Bool :=
  c == ' ' || c == '\t' || c == '\n' || c == '\r' || c == '\x0b' ||
    c == '\x0c'

/-- Python `str.split()` (no argument): split on runs of whitespace and
drop empty pieces. The fuel argument only bounds the recursion; every
step consumes at least one character, so `fuel = length` never runs out. -/
def pySplitFuel : Nat → List Char → List (List Char)
  | 0, _ => []
  | _ + 1, [] => []
  | fuel + 1, c :: cs =>
    if pyIsSpace c then pySplitFuel fuel cs
    else
      (c :: cs.takeWhile (fun d => !pyIsSpace d)) ::
        pySplitFuel fuel (cs.dropWhile (fun d => !pyIsSpace d))

/-- Python `str.split()` on a character list. -/
def pySplit (s : List Char) : List (List Char) :=
  pySplitFuel s.length s

/-- Python `int(str)` on a token: an optional sign followed by one or more
decimal digits (digit-grouping underscores, unused by the callers, are not
modelled); anything else raises `ValueError`, embedded as `none`. -/
def pyInt (s : List Char) : Option Int :=
  match s with
  | '-' :: ds =>
    if ds ≠ [] ∧ ds.all Char.isDigit then some (-(digitsVal ds : Int))
    else none
  | '+' :: ds =>
    if ds ≠ [] ∧ ds.all Char.isDigit then some ((digitsVal ds : Int))
    else none
  | ds =>
    if ds ≠ [] ∧ ds.all Char.isDigit then some ((digitsVal ds : Int))
    else none

/-- `pathlib.Path(s).name`: the part after the last `/` (the names the
server passes in never end in a separator, where `pathlib` would also
normalize). -/
def pyBasename (s : List Char) : List Char :=
  (s.reverse.takeWhile (· ≠ '/')).reverse

/-- Split at the last dot: `some (before, after)` when the list contains a
dot. -/
def splitLastDot : List Char → Option (List Char × List Char)
  | [] => none
  | c :: cs =>
    match splitLastDot cs with
    | some (pre, suf) => some (c :: pre, suf)
    | none => if c = '.' then some ([], cs) else none

/-- `pathlib.Path(s).stem`: the final component minus its suffix; the
suffix is the part from the last dot, present only when that dot is
neither the first nor the last character of the name. -/
def pyStem (s : List Char) : List Char :=
  let name := pyBasename s
  match splitLastDot name with
  | some (pre, suf) => if pre ≠ [] ∧ suf ≠ [] then pre else name
  | none => name

/-! ## Opus-mono SDP transform (claim C6)

`force_opus_mono` in `vt_client.py` (lines 33-51). The two regexes are
embedded position by position: both are anchored nowhere, `\d+` and `(.+)`
are greedy, and `.` does not match `\n` (but does match `\r`). -/

/-- Match of `a=rtpmap:(\d+) opus/48000/2` at the current position,
returning the captured payload type digits. -/
def matchRtpmapAt (s : List Char) : Option (List Char) :=
  match stripPre "a=rtpmap:".toList s with
  | none => none
  | some rest =>
    let r := takeDigits rest
    if r.1 = [] then none
    else
      match stripPre " opus/48000/2".toList r.2 with
      | some _ => some r.1
      | none => none

/-- `re.search(r'a=rtpmap:(\d+) opus/48000/2', sdp)`: leftmost match,
payload-type group. -/
def findRtpmap : List Char → Option (List Char)
  | [] => none
  | c :: cs =>
    match matchRtpmapAt (c :: cs) with
    | some ds => some ds
    | none => findRtpmap cs

/-- Match of `a=fmtp:PT (.+)` at the current position: the literal
head, then one or more non-newline characters (greedy, to the end of the
line). Returns the `(.+)` group and the remainder after the match. -/
def matchFmtpAt (pt : List Char) (s : List Char) :
    Option (List Char × List Char) :=
  match stripPre ("a=fmtp:".toList ++ pt ++ [' ']) s with
  | none => none
  | some rest =>
    let r := takeLine rest
    if r.1 = [] then none else some (r.1, r.2)

/-- `fmtp_regex.search(sdp)`, used only as a test. -/
def fmtpFound (pt : List Char) : List Char → Bool
  | [] => false
  | c :: cs => (matchFmtpAt pt (c :: cs)).isSome || fmtpFound pt cs

/-- `fmtp_regex.sub(f'a=fmtp:PT \\1;stereo=0;sprop-stereo=0', sdp)`:
rewrite every non-overlapping match left to right, appending the stereo
parameters to the captured group. The fuel only bounds the recursion:
every step consumes at least one character, so `fuel = length` never runs
out. -/
def fmtpSubFuel (pt : List Char) : Nat → List Char → List Char
  | 0, s => s
  | _ + 1, [] => []
  | fuel + 1, c :: cs =>
    match matchFmtpAt pt (c :: cs) with
    | some (grp, rest) =>
      "a=fmtp:".toList ++ pt ++ [' '] ++ grp ++
        ";stereo=0;sprop-stereo=0".toList ++ fmtpSubFuel pt fuel rest
    | none => c :: fmtpSubFuel pt fuel cs

/-- `re.sub(f'(a=rtpmap:PT opus/48000/2)',
f'\\1\r\na=fmtp:PT stereo=0;sprop-stereo=0', sdp)`: after each occurrence
of the (literal) pattern, insert a CRLF and a fresh fmtp line. Fueled like
`fmtpSubFuel`. -/
def rtpmapSubFuel (pt : List Char) : Nat → List Char → List Char
  | 0, s => s
  | _ + 1, [] => []
  | fuel + 1, c :: cs =>
    match stripPre ("a=rtpmap:".toList ++ pt ++ " opus/48000/2".toList)
        (c :: cs) with
    | some rest =>
      "a=rtpmap:".toList ++ pt ++ " opus/48000/2".toList ++
        '\r' :: '\n' :: ("a=fmtp:".toList ++ pt ++
          " stereo=0;sprop-stereo=0".toList) ++
        rtpmapSubFuel pt fuel rest
    | none => c :: rtpmapSubFuel pt fuel cs

/-- `force_opus_mono` (vt_client.py lines 33-51): find the Opus payload
type; if an fmtp line for it exists, append the stereo parameters to it,
otherwise create the fmtp line after the rtpmap; with no Opus rtpmap,
return the SDP unchanged. -/
def force_opus_mono (sdp : String) : String :=
  match findRtpmap sdp.toList with
  | none => sdp
  | some pt =>
    if fmtpFound pt sdp.toList then
      (fmtpSubFuel pt sdp.toList.length sdp.toList).asString
    else
      (rtpmapSubFuel pt sdp.toList.length sdp.toList).asString

/-- C6 counterexample: on an SDP with an Opus rtpmap and an fmtp line, the
transform appends `;stereo=0;sprop-stereo=0` on *every* application — it
never checks whether the parameters are already present — so applying it
twice differs from applying it once. -/
theorem force_opus_mono_not_idempotent :
    force_opus_mono (force_opus_mono
        "a=rtpmap:111 opus/48000/2\r\na=fmtp:111 minptime=10") ≠
      force_opus_mono
        "a=rtpmap:111 opus/48000/2\r\na=fmtp:111 minptime=10" := by
  decide

/-- C6 amended. The transform is idempotent only where it is the identity:
on SDP strings with no `opus/48000/2` rtpmap entry it returns its input
unchanged (hence twice equals once); when the rtpmap is present, each
application appends the stereo parameters again
(`force_opus_mono_not_idempotent`). -/
theorem force_opus_mono_ident_of_no_opus (s : String)
    (h : findRtpmap s.toList = none) :
    force_opus_mono s = s ∧
      force_opus_mono (force_opus_mono s) = force_opus_mono s := by
  have h1 : force_opus_mono s = s := by
    unfold force_opus_mono
    rw [h]
  refine ⟨h1, ?_⟩
  rw [h1, h1]

/-- Witness for the amended C6 on an SDP with no Opus section. -/
theorem force_opus_mono_ident_of_no_opus_witness :
    force_opus_mono "v=0\r\nm=audio 9 UDP/TLS/RTP/SAVPF 0" =
        "v=0\r\nm=audio 9 UDP/TLS/RTP/SAVPF 0" ∧
      force_opus_mono (force_opus_mono
          "v=0\r\nm=audio 9 UDP/TLS/RTP/SAVPF 0") =
        force_opus_mono "v=0\r\nm=audio 9 UDP/TLS/RTP/SAVPF 0" :=
  force_opus_mono_ident_of_no_opus _ (by decide)

/-! ## Transcript listing and filename datetimes (claim C7)

`StreamServer._extract_datetime_from_filename` (lines 290-296),
`_format_short_datetime` (lines 298-305) and `handle_srt_list`
(lines 361-382). -/

/-- `re.match(r'rec_(\d{4})(\d{2})(\d{2})_(\d{2})(\d{2})(\d{2})', stem)`
followed by the f-string `"{1}-{2}-{3} {4}:{5}:{6}"`: anchored at the
start, six digit groups, trailing characters ignored. -/
def extractStem : List Char → Option String
  | c0 :: c1 :: c2 :: c3 :: y1 :: y2 :: y3 :: y4 :: m1 :: m2 :: d1 ::
      d2 :: c12 :: h1 :: h2 :: n1 :: n2 :: s1 :: s2 :: _ =>
    if c0 = 'r' ∧ c1 = 'e' ∧ c2 = 'c' ∧ c3 = '_' ∧ c12 = '_' ∧
        y1.isDigit ∧ y2.isDigit ∧ y3.isDigit ∧ y4.isDigit ∧
        m1.isDigit ∧ m2.isDigit ∧ d1.isDigit ∧ d2.isDigit ∧
        h1.isDigit ∧ h2.isDigit ∧ n1.isDigit ∧ n2.isDigit ∧
        s1.isDigit ∧ s2.isDigit then
      some ([y1, y2, y3, y4, '-', m1, m2, '-', d1, d2, ' ', h1, h2, ':',
        n1, n2, ':', s1, s2].asString)
    else none
  | _ => none

/-- `_extract_datetime_from_filename`: apply the pattern to
`Path(filename).stem`. -/
def extract_datetime_from_filename (filename : String) : Option String :=
  extractStem (pyStem filename.toList)

/-- `re.match(r'\d{4}-(\d{2})-(\d{2}) (\d{2}):(\d{2}):\d{2}', s)` followed
by `"{1}/{2} {3}:{4}"`. -/
def shortStem : List Char → Option String
  | a1 :: a2 :: a3 :: a4 :: '-' :: b1 :: b2 :: '-' :: c1 :: c2 :: ' ' ::
      e1 :: e2 :: ':' :: f1 :: f2 :: ':' :: g1 :: g2 :: _ =>
    if a1.isDigit && a2.isDigit && a3.isDigit && a4.isDigit &&
        b1.isDigit && b2.isDigit && c1.isDigit && c2.isDigit &&
        e1.isDigit && e2.isDigit && f1.isDigit && f2.isDigit &&
        g1.isDigit && g2.isDigit then
      some ([b1, b2, '/', c1, c2, ' ', e1, e2, ':', f1, f2].asString)
    else none
  | _ => none

/-- `_format_short_datetime`: `"-"` for a missing datetime, the shortened
form on a pattern match, the input unchanged otherwise. -/
def format_short_datetime : Option String → String
  | none => "-"
  | some ds =>
    if ds = "" then "-"
    else
      match shortStem ds.toList with
      | some short => short
      | none => ds

/-- One row of the `handle_srt_list` response. -/
structure SrtEntry where
  filename : String
  datetime : Option String
  datetimeShort : String
  wavFile : String
  preview : String
deriving DecidableEq, Repr

/-- The row built for one `.srt` file name. The preview is read from the
file system, which is outside this claim; it is abstracted as the
`previews` oracle. -/
def mkSrtEntry (previews : String → String) (filename : String) :
    SrtEntry :=
  { filename := filename
    datetime := extract_datetime_from_filename filename
    datetimeShort :=
      format_short_datetime (extract_datetime_from_filename filename)
    wavFile := (pyStem filename.toList).asString ++ ".wav"
    preview := previews filename }

/-- `handle_srt_list`: `sorted(RECORDINGS_DIR.glob('*.srt'),
reverse=True)[:100]`, then one entry per file. `names` are the `.srt`
file names found by the glob. -/
def handle_srt_list (previews : String → String) (names : List String) :
    List SrtEntry :=
  ((names.mergeSort (fun a b => decide (b ≤ a))).take 100).map
    (mkSrtEntry previews)

/-- C7 counterexample: the claim says a `web_YYYYMMDD_HHMMSS` basename
yields the non-null canonical datetime, but the extraction regex only
matches `rec_`, so a `web_` file gets no datetime at all. -/
theorem extract_datetime_web_counterexample :
    extract_datetime_from_filename "web_20240101_120000.srt" ≠
        some "2024-01-01 12:00:00" ∧
      extract_datetime_from_filename "web_20240101_120000.srt" = none := by
  decide

/-- A decimal digit is neither a dot nor a slash. -/
theorem digit_props (c : Char) (h : c.isDigit = true) :
    ¬ c = '.' ∧ ¬ c = '/' := by
  constructor <;> rintro rfl <;> exact absurd h (by decide)

/-- `pyBasename` is the identity on separator-free names. -/
theorem pyBasename_eq_self (s : List Char) (h : ∀ c ∈ s, ¬ c = '/') :
    pyBasename s = s := by
  unfold pyBasename
  rw [List.takeWhile_eq_self_iff.mpr, List.reverse_reverse]
  intro x hx
  simpa using h x (List.mem_reverse.mp hx)

/-- `splitLastDot` finds nothing in a dot-free list. -/
theorem splitLastDot_of_no_dot (s : List Char) (h : ∀ c ∈ s, ¬ c = '.') :
    splitLastDot s = none := by
  induction s with
  | nil => rfl
  | cons c cs ih =>
    have h1 : ¬ c = '.' := h c (List.mem_cons_self c cs)
    have h2 := ih (fun x hx => h x (List.mem_cons_of_mem c hx))
    simp [splitLastDot, h2, h1]

/-- `splitLastDot` splits at the unique dot. -/
theorem splitLastDot_append (L suf : List Char) (hL : ∀ c ∈ L, ¬ c = '.')
    (hsuf : ∀ c ∈ suf, ¬ c = '.') :
    splitLastDot (L ++ '.' :: suf) = some (L, suf) := by
  induction L with
  | nil => simp [splitLastDot, splitLastDot_of_no_dot suf hsuf]
  | cons c cs ih =>
    have h2 := ih (fun x hx => hL x (List.mem_cons_of_mem c hx))
    simp [splitLastDot, h2]

/-- `pyStem` of `<name>.<ext>` is `<name>` when name and extension are
non-empty and free of dots and separators. -/
theorem pyStem_append (L suf : List Char)
    (hL : ∀ c ∈ L, ¬ c = '.' ∧ ¬ c = '/')
    (hsuf : ∀ c ∈ suf, ¬ c = '.' ∧ ¬ c = '/')
    (hLne : L ≠ []) (hsufne : suf ≠ []) :
    pyStem (L ++ '.' :: suf) = L := by
  unfold pyStem
  have hb : pyBasename (L ++ '.' :: suf) = L ++ '.' :: suf := by
    apply pyBasename_eq_self
    intro c hc
    rcases List.mem_append.mp hc with h | h
    · exact (hL c h).2
    · rcases List.mem_cons.mp h with rfl | h
      · decide
      · exact (hsuf c h).2
  rw [hb]
  simp [splitLastDot_append L suf (fun c hc => (hL c hc).1)
    (fun c hc => (hsuf c hc).1), hLne, hsufne]

/-- C7 amended. The transcript list returns at most 100 entries, each
pairing the `.srt` filename with the same-stem `.wav` filename and the
datetime extracted from that filename; a `rec_YYYYMMDD_HHMMSS` basename
yields exactly the canonical `YYYY-MM-DD HH:MM:SS` string formed from its
digits (so parse-then-format reproduces the canonical datetime); but a
`web_YYYYMMDD_HHMMSS` basename — included by the original claim — yields
no datetime, because the extraction pattern only matches `rec_`. -/
theorem srt_list_spec (previews : String → String) (names : List String)
    (y1 y2 y3 y4 m1 m2 d1 d2 h1 h2 n1 n2 s1 s2 : Char)
    (hy1 : y1.isDigit = true) (hy2 : y2.isDigit = true)
    (hy3 : y3.isDigit = true) (hy4 : y4.isDigit = true)
    (hm1 : m1.isDigit = true) (hm2 : m2.isDigit = true)
    (hd1 : d1.isDigit = true) (hd2 : d2.isDigit = true)
    (hh1 : h1.isDigit = true) (hh2 : h2.isDigit = true)
    (hn1 : n1.isDigit = true) (hn2 : n2.isDigit = true)
    (hs1 : s1.isDigit = true) (hs2 : s2.isDigit = true) :
    (handle_srt_list previews names).length ≤ 100 ∧
    (∀ e ∈ handle_srt_list previews names,
      e.datetime = extract_datetime_from_filename e.filename ∧
      e.wavFile = (pyStem e.filename.toList).asString ++ ".wav") ∧
    extract_datetime_from_filename
        (('r' :: 'e' :: 'c' :: '_' :: y1 :: y2 :: y3 :: y4 :: m1 :: m2 ::
          d1 :: d2 :: '_' :: h1 :: h2 :: n1 :: n2 :: s1 :: s2 :: '.' ::
          's' :: 'r' :: 't' :: []).asString) =
      some ([y1, y2, y3, y4, '-', m1, m2, '-', d1, d2, ' ', h1, h2, ':',
        n1, n2, ':', s1, s2].asString) ∧
    extract_datetime_from_filename
        (('w' :: 'e' :: 'b' :: '_' :: y1 :: y2 :: y3 :: y4 :: m1 :: m2 ::
          d1 :: d2 :: '_' :: h1 :: h2 :: n1 :: n2 :: s1 :: s2 :: '.' ::
          's' :: 'r' :: 't' :: []).asString) = none := by
  have hsufOK : ∀ c ∈ ('s' :: 'r' :: 't' :: []), ¬ c = '.' ∧ ¬ c = '/' := by
    decide
  have hstemR : ∀ c ∈ ('r' :: 'e' :: 'c' :: '_' :: y1 :: y2 :: y3 :: y4 ::
      m1 :: m2 :: d1 :: d2 :: '_' :: h1 :: h2 :: n1 :: n2 :: s1 :: s2 ::
      []), ¬ c = '.' ∧ ¬ c = '/' := by
    intro c hc
    simp only [List.mem_cons, List.not_mem_nil, or_false] at hc
    rcases hc with rfl | rfl | rfl | rfl | rfl | rfl | rfl | rfl | rfl |
      rfl | rfl | rfl | rfl | rfl | rfl | rfl | rfl | rfl | rfl
    all_goals first
      | exact ⟨by decide, by decide⟩
      | exact digit_props _ (by assumption)
  have hstemW : ∀ c ∈ ('w' :: 'e' :: 'b' :: '_' :: y1 :: y2 :: y3 :: y4 ::
      m1 :: m2 :: d1 :: d2 :: '_' :: h1 :: h2 :: n1 :: n2 :: s1 :: s2 ::
      []), ¬ c = '.' ∧ ¬ c = '/' := by
    intro c hc
    simp only [List.mem_cons, List.not_mem_nil, or_false] at hc
    rcases hc with rfl | rfl | rfl | rfl | rfl | rfl | rfl | rfl | rfl |
      rfl | rfl | rfl | rfl | rfl | rfl | rfl | rfl | rfl | rfl
    all_goals first
      | exact ⟨by decide, by decide⟩
      | exact digit_props _ (by assumption)
  refine ⟨?_, ?_, ?_, ?_⟩
  · unfold handle_srt_list
    rw [List.length_map]
    exact List.length_take_le 100 _
  · intro e he
    simp only [handle_srt_list, List.mem_map] at he
    obtain ⟨n, hn, rfl⟩ := he
    exact ⟨rfl, rfl⟩
  · unfold extract_datetime_from_filename
    have hlist : ((('r' :: 'e' :: 'c' :: '_' :: y1 :: y2 :: y3 :: y4 ::
        m1 :: m2 :: d1 :: d2 :: '_' :: h1 :: h2 :: n1 :: n2 :: s1 :: s2 ::
        '.' :: 's' :: 'r' :: 't' :: []).asString)).toList =
        ('r' :: 'e' :: 'c' :: '_' :: y1 :: y2 :: y3 :: y4 :: m1 :: m2 ::
          d1 :: d2 :: '_' :: h1 :: h2 :: n1 :: n2 :: s1 :: s2 :: []) ++
          '.' :: 's' :: 'r' :: 't' :: [] := rfl
    rw [hlist, pyStem_append _ _ hstemR hsufOK (by simp) (by simp)]
    simp [extractStem, hy1, hy2, hy3, hy4, hm1, hm2, hd1, hd2, hh1, hh2,
      hn1, hn2, hs1, hs2]
  · unfold extract_datetime_from_filename
    have hlist : ((('w' :: 'e' :: 'b' :: '_' :: y1 :: y2 :: y3 :: y4 ::
        m1 :: m2 :: d1 :: d2 :: '_' :: h1 :: h2 :: n1 :: n2 :: s1 :: s2 ::
        '.' :: 's' :: 'r' :: 't' :: []).asString)).toList =
        ('w' :: 'e' :: 'b' :: '_' :: y1 :: y2 :: y3 :: y4 :: m1 :: m2 ::
          d1 :: d2 :: '_' :: h1 :: h2 :: n1 :: n2 :: s1 :: s2 :: []) ++
          '.' :: 's' :: 'r' :: 't' :: [] := rfl
    rw [hlist, pyStem_append _ _ hstemW hsufOK (by simp) (by simp)]
    simp [extractStem]

/-- Witness for the amended C7: `rec_20240101_120000.srt` parses to the
canonical `2024-01-01 12:00:00`. -/
theorem srt_list_spec_witness :
    extract_datetime_from_filename
        (('r' :: 'e' :: 'c' :: '_' :: '2' :: '0' :: '2' :: '4' :: '0' ::
          '1' :: '0' :: '1' :: '_' :: '1' :: '2' :: '0' :: '0' :: '0' ::
          '0' :: '.' :: 's' :: 'r' :: 't' :: []).asString) =
      some (['2', '0', '2', '4', '-', '0', '1', '-', '0', '1', ' ', '1',
        '2', ':', '0', '0', ':', '0', '0'].asString) :=
  (srt_list_spec (fun _ => "") [] '2' '0' '2' '4' '0' '1' '0' '1' '1' '2'
    '0' '0' '0' '0' (by decide) (by decide) (by decide) (by decide)
    (by decide) (by decide) (by decide) (by decide) (by decide)
    (by decide) (by decide) (by decide) (by decide) (by decide)).2.2.1

/-! ## ICE candidate string parsing (claim C8)

The `ice-candidate` branch of `handle_websocket` (stream_server.py lines
833-861); `vt_client.py` lines 696-709 use the identical split-and-index
logic. -/

/-- `str.startswith`, on character lists. -/
def startsWithL (p s : List Char) : Bool :=
  (stripPre p s).isSome

/-- The fields the server extracts from a candidate string. -/
structure IceCandidate where
  foundation : String
  component : Int
  protocol : String
  priority : Int
  ip : String
  port : Int
  typ : String
deriving DecidableEq, Repr

/-- The candidate-string parsing of `handle_websocket`:
`parts = candidate_str.split()`; accept when there are at least 8 parts
and part 0 starts with `candidate:`; extract foundation (between the
first and second colon of part 0), component `int(parts[1])`, protocol
`parts[2]`, priority `int(parts[3])`, ip `parts[4]`, port `int(parts[5])`
and the type `parts[7]`. A failing `int()` raises, which the caller turns
into a discarded candidate (`none`). The token at index 6 is never
examined. -/
def parse_ice_candidate (candidate_str : String) : Option IceCandidate :=
  let parts := pySplit candidate_str.toList
  if parts.length ≥ 8 ∧
      startsWithL "candidate:".toList (parts.getD 0 []) = true then
    match pyInt (parts.getD 1 []), pyInt (parts.getD 3 []),
        pyInt (parts.getD 5 []) with
    | some comp, some prio, some port =>
      some { foundation :=
               List.asString ((pySplitOn ':' (parts.getD 0 [])).getD 1 [])
             component := comp
             protocol := List.asString (parts.getD 2 [])
             priority := prio
             ip := List.asString (parts.getD 4 [])
             port := port
             typ := List.asString (parts.getD 7 []) }
    | _, _, _ => none
  else none

/-- C8 counterexample: a string whose token at index 6 is `footyp`, not
`typ`, is still accepted and turned into a candidate — the parser never
checks index 6, contrary to the claim's acceptance conditions. -/
theorem ice_accepts_without_typ_counterexample :
    (parse_ice_candidate
      "candidate:f00 1 udp 2130706431 192.168.1.7 54321 footyp host"
      ).isSome = true ∧
    (pySplit (String.toList
        "candidate:f00 1 udp 2130706431 192.168.1.7 54321 footyp host")
      ).getD 6 [] ≠ "typ".toList := by
  decide

/-- C8 amended. A candidate string is accepted iff it splits into at least
8 whitespace tokens, token 0 starts with `candidate:`, and tokens 1, 3 and
5 parse as integers — the token at index 6 is never examined; on acceptance
the fields are extracted exactly from tokens 0 (after the colon), 1, 2, 3,
4, 5 and 7. -/
theorem ice_parse_spec (s : String) :
    ((parse_ice_candidate s).isSome = true ↔
      ((pySplit s.toList).length ≥ 8 ∧
        startsWithL "candidate:".toList ((pySplit s.toList).getD 0 [])
          = true ∧
        (pyInt ((pySplit s.toList).getD 1 [])).isSome = true ∧
        (pyInt ((pySplit s.toList).getD 3 [])).isSome = true ∧
        (pyInt ((pySplit s.toList).getD 5 [])).isSome = true)) ∧
    (∀ c, parse_ice_candidate s = some c →
      c.foundation = List.asString
        ((pySplitOn ':' ((pySplit s.toList).getD 0 [])).getD 1 []) ∧
      pyInt ((pySplit s.toList).getD 1 []) = some c.component ∧
      c.protocol = List.asString ((pySplit s.toList).getD 2 []) ∧
      pyInt ((pySplit s.toList).getD 3 []) = some c.priority ∧
      c.ip = List.asString ((pySplit s.toList).getD 4 []) ∧
      pyInt ((pySplit s.toList).getD 5 []) = some c.port ∧
      c.typ = List.asString ((pySplit s.toList).getD 7 [])) := by
  constructor
  · constructor
    · intro h
      unfold parse_ice_candidate at h
      by_cases hc : (pySplit s.toList).length ≥ 8 ∧
          startsWithL "candidate:".toList ((pySplit s.toList).getD 0 [])
            = true
      · rw [if_pos hc] at h
        refine ⟨hc.1, hc.2, ?_, ?_, ?_⟩ <;>
        · rcases h1 : pyInt ((pySplit s.toList).getD 1 []) with _ | v1 <;>
          rcases h2 : pyInt ((pySplit s.toList).getD 3 []) with _ | v2 <;>
          rcases h3 : pyInt ((pySplit s.toList).getD 5 []) with _ | v3 <;>
            rw [h1, h2, h3] at h <;> simp_all
      · rw [if_neg hc] at h
        simp at h
    · rintro ⟨h8, hstart, hi1, hi3, hi5⟩
      unfold parse_ice_candidate
      rw [if_pos ⟨h8, hstart⟩]
      rcases Option.isSome_iff_exists.mp hi1 with ⟨v1, hv1⟩
      rcases Option.isSome_iff_exists.mp hi3 with ⟨v3, hv3⟩
      rcases Option.isSome_iff_exists.mp hi5 with ⟨v5, hv5⟩
      rw [hv1, hv3, hv5]
      rfl
  · intro c hc
    unfold parse_ice_candidate at hc
    by_cases hcond : (pySplit s.toList).length ≥ 8 ∧
        startsWithL "candidate:".toList ((pySplit s.toList).getD 0 [])
          = true
    · rw [if_pos hcond] at hc
      rcases h1 : pyInt ((pySplit s.toList).getD 1 []) with _ | v1 <;>
      rcases h2 : pyInt ((pySplit s.toList).getD 3 []) with _ | v2 <;>
      rcases h3 : pyInt ((pySplit s.toList).getD 5 []) with _ | v3 <;>
        rw [h1, h2, h3] at hc <;> simp_all
      cases hc
      exact ⟨rfl, rfl, rfl, rfl, rfl, rfl, rfl⟩
    · rw [if_neg hcond] at hc
      simp at hc

/-- A well-formed host candidate string, for the C8 witness. -/
def iceExampleStr : String :=
  "candidate:4234997325 1 udp 2043278322 192.168.1.7 44323 typ host"

/-- The candidate the server builds from `iceExampleStr`. -/
def iceExampleCand : IceCandidate :=
  { foundation := "4234997325", component := 1, protocol := "udp"
    priority := 2043278322, ip := "192.168.1.7", port := 44323
    typ := "host" }

/-- Witness for the amended C8: the well-formed host candidate
`iceExampleStr` is parsed into exactly the fields of
`iceExampleCand`. -/
theorem ice_parse_spec_witness :
    iceExampleCand.foundation = List.asString
      ((pySplitOn ':'
        ((pySplit iceExampleStr.toList).getD 0 [])).getD 1 []) ∧
    pyInt ((pySplit iceExampleStr.toList).getD 1 []) =
      some iceExampleCand.component ∧
    iceExampleCand.protocol =
      List.asString ((pySplit iceExampleStr.toList).getD 2 []) ∧
    pyInt ((pySplit iceExampleStr.toList).getD 3 []) =
      some iceExampleCand.priority ∧
    iceExampleCand.ip =
      List.asString ((pySplit iceExampleStr.toList).getD 4 []) ∧
    pyInt ((pySplit iceExampleStr.toList).getD 5 []) =
      some iceExampleCand.port ∧
    iceExampleCand.typ =
      List.asString ((pySplit iceExampleStr.toList).getD 7 []) :=
  (ice_parse_spec iceExampleStr).2 iceExampleCand (by decide)

/-! ## Audio range requests (claim C9)

`StreamServer.handle_audio` (lines 445-496). File contents are byte
lists; the recordings directory is the `fs` lookup. -/

/-- The character class `[\w\-]` of the name filter (ASCII view of `\w`;
the server's recording names are ASCII). -/
def isWordDash (c : Char) : Bool :=
  c.isAlphanum || c == '_' || c == '-'

/-- `re.match(r'^[\w\-]+\.wav$', name, re.IGNORECASE)`: one or more word
characters or dashes, one literal dot, `wav` in either case, then the end
of the string (`$` also accepts one final newline). -/
def wavNameOk (s : List Char) : Bool :=
  let stem := s.takeWhile isWordDash
  !stem.isEmpty &&
    (match s.drop stem.length with
     | '.' :: w :: a :: v :: tail =>
       w.toLower == 'w' && a.toLower == 'a' && v.toLower == 'v' &&
         (tail.isEmpty || tail == ['\n'])
     | _ => false)

/-- `re.match(r'bytes=(\d+)-(\d*)', header)`: anchored at the start; the
first group is one or more digits, the second zero or more; trailing
characters are ignored. -/
def parseRange (s : List Char) : Option (List Char × List Char) :=
  match stripPre "bytes=".toList s with
  | none => none
  | some r =>
    let d := takeDigits r
    if d.1 = [] then none
    else
      match d.2 with
      | '-' :: r2 => some (d.1, (takeDigits r2).1)
      | _ => none

/-- `f.seek(start)` followed by `f.read(length)` where `length` is a
Python int: a negative length reads to the end of the file. -/
def pyRead (content : List Nat) (start : Nat) (length : Int) : List Nat :=
  if length < 0 then content.drop start
  else (content.drop start).take length.toNat

/-- The three response shapes of `handle_audio`: a 206 partial response
with its headers, a plain `web.FileResponse`, and an error response. -/
inductive AudioResponse
  | ranged (status : Nat) (contentType : String) (contentLength : String)
      (contentRange : String) (acceptRanges : String) (body : List Nat)
  | fileResp (file : String)
  | error (status : Nat)
deriving DecidableEq, Repr

/-- `handle_audio`: require a file parameter, take its basename, filter
on the WAV-name pattern, require the file to exist, then honour a
syntactically valid `Range: bytes=a-b` header with a 206 response whose
`Content-Length` is `str(end - start + 1)`, whose `Content-Range` is
`bytes start-end/size`, and whose body is `read(end - start + 1)` from
offset `start`; without a (parsable) range header, serve the whole
file. -/
def handle_audio (fs : String → Option (List Nat)) (fileParam : String)
    (rangeHeader : String) : AudioResponse :=
  if fileParam = "" then .error 400
  else
    let filename := List.asString (pyBasename fileParam.toList)
    if wavNameOk filename.toList = false then .error 400
    else
      match fs filename with
      | none => .error 400
      | some content =>
        let file_size : Int := content.length
        if rangeHeader ≠ "" then
          match parseRange rangeHeader.toList with
          | some (da, db) =>
            let start : Int := digitsVal da
            let endB : Int :=
              if db = [] then file_size - 1 else digitsVal db
            let length : Int := endB - start + 1
            .ranged 206 "audio/wav" (toString length)
              ("bytes " ++ toString start ++ "-" ++ toString endB ++
                "/" ++ toString file_size)
              "bytes" (pyRead content start.toNat length)
          | none => .fileResp filename
        else .fileResp filename

/-- `stripPre` strips exactly the prepended literal. -/
theorem stripPre_self_append (p r : List Char) :
    stripPre p (p ++ r) = some r := by
  induction p with
  | nil => rfl
  | cons c cs ih => simp [stripPre, ih]

/-- `takeDigits` consumes an all-digit list entirely. -/
theorem takeDigits_of_all (d : List Char) (hd : d.all Char.isDigit = true) :
    takeDigits d = (d, []) := by
  induction d with
  | nil => rfl
  | cons c cs ih =>
    simp only [List.all_cons, Bool.and_eq_true] at hd
    simp [takeDigits, hd.1, ih hd.2]

/-- `takeDigits` stops at the dash after an all-digit group. -/
theorem takeDigits_append_dash (d r : List Char)
    (hd : d.all Char.isDigit = true) :
    takeDigits (d ++ '-' :: r) = (d, '-' :: r) := by
  induction d with
  | nil => simp [takeDigits]
  | cons c cs ih =>
    simp only [List.all_cons, Bool.and_eq_true] at hd
    simp [takeDigits, hd.1, ih hd.2]

/-- `parseRange` recovers the two digit groups of a well-formed
`bytes=a-b` header. -/
theorem parseRange_eq (da db : List Char) (hda : da ≠ [])
    (hdaD : da.all Char.isDigit = true)
    (hdbD : db.all Char.isDigit = true) :
    parseRange ("bytes=".toList ++ (da ++ '-' :: db)) = some (da, db) := by
  unfold parseRange
  rw [stripPre_self_append]
  dsimp only
  rw [takeDigits_append_dash da db hdaD]
  simp [hda, takeDigits_of_all db hdbD]

/-- C9. For an existing WAV file whose basename passes the name filter,
and a range request `bytes=a-b` with `0 ≤ a ≤ b < n` (`n` the file size),
`handle_audio` returns status 206 with `Content-Length = b - a + 1`,
`Content-Range: bytes a-b/n`, `Accept-Ranges: bytes`, and the byte slice
`[a, b]` of the file as body. -/
theorem audio_range_spec (fs : String → Option (List Nat))
    (fileParam : String) (content : List Nat) (da db : List Char)
    (header : String)
    (hname : wavNameOk (pyBasename fileParam.toList) = true)
    (hfs : fs (List.asString (pyBasename fileParam.toList)) = some content)
    (hda : da ≠ []) (hdaD : da.all Char.isDigit = true)
    (hdb : db ≠ []) (hdbD : db.all Char.isDigit = true)
    (hhead : header.toList = "bytes=".toList ++ (da ++ '-' :: db))
    (hab : digitsVal da ≤ digitsVal db)
    (hbn : digitsVal db < content.length) :
    handle_audio fs fileParam header =
      .ranged 206 "audio/wav"
        (toString ((digitsVal db : Int) - (digitsVal da : Int) + 1))
        ("bytes " ++ toString ((digitsVal da : Int) : Int) ++ "-" ++
          toString ((digitsVal db : Int) : Int) ++ "/" ++
          toString ((content.length : Int) : Int))
        "bytes"
        ((content.drop (digitsVal da)).take
          (digitsVal db - digitsVal da + 1)) ∧
    ((content.drop (digitsVal da)).take
        (digitsVal db - digitsVal da + 1)).length =
      digitsVal db - digitsVal da + 1 := by
  refine ⟨?_, ?_⟩
  case refine_2 =>
    rw [List.length_take, List.length_drop]
    omega
  have hfp : ¬ fileParam = "" := by
    intro h
    rw [h] at hname
    exact absurd hname (by decide)
  have hhne : ¬ header = "" := by
    intro h
    rw [h] at hhead
    simp at hhead
  unfold handle_audio
  rw [if_neg hfp]
  dsimp only
  rw [show (List.asString (pyBasename fileParam.toList)).toList =
    pyBasename fileParam.toList from rfl, hname]
  rw [if_neg (by simp)]
  rw [hfs]
  dsimp only
  rw [if_pos hhne, hhead, parseRange_eq da db hda hdaD hdbD]
  dsimp only
  rw [if_neg hdb]
  have htoNat : ((digitsVal da : Int)).toNat = digitsVal da :=
    Int.toNat_ofNat _
  have hlen : ¬ ((digitsVal db : Int) - (digitsVal da : Int) + 1 < 0) := by
    omega
  have hlenNat : ((digitsVal db : Int) - (digitsVal da : Int) + 1).toNat =
      digitsVal db - digitsVal da + 1 := by
    omega
  simp only [pyRead, htoNat, hlen, if_false, hlenNat]

/-- A one-file recordings directory for the C9 witness. -/
def audioFsW : String → Option (List Nat) :=
  fun n =>
    if n = "x.wav" then some [10, 11, 12, 13, 14, 15, 16, 17, 18, 19]
    else none

/-- Witness for C9: `GET /api/audio?file=x.wav` with `Range: bytes=2-5`
on a 10-byte file returns 206 with length 4 and bytes 2..5. -/
theorem audio_range_spec_witness :
    handle_audio audioFsW "x.wav" "bytes=2-5" =
      .ranged 206 "audio/wav"
        (toString ((digitsVal ['5'] : Int) - (digitsVal ['2'] : Int) + 1))
        ("bytes " ++ toString ((digitsVal ['2'] : Int) : Int) ++ "-" ++
          toString ((digitsVal ['5'] : Int) : Int) ++ "/" ++
          toString ((([10, 11, 12, 13, 14, 15, 16, 17, 18, 19] :
            List Nat).length : Int) : Int))
        "bytes"
        ((([10, 11, 12, 13, 14, 15, 16, 17, 18, 19] : List Nat).drop
            (digitsVal ['2'])).take
          (digitsVal ['5'] - digitsVal ['2'] + 1)) ∧
    ((([10, 11, 12, 13, 14, 15, 16, 17, 18, 19] : List Nat).drop
          (digitsVal ['2'])).take
        (digitsVal ['5'] - digitsVal ['2'] + 1)).length =
      digitsVal ['5'] - digitsVal ['2'] + 1 :=
  audio_range_spec audioFsW "x.wav"
    [10, 11, 12, 13, 14, 15, 16, 17, 18, 19] ['2'] ['5'] "bytes=2-5"
    (by decide) (by decide) (by decide) (by decide) (by decide)
    (by decide) (by decide) (by decide) (by decide)

/-! ## Transcript save (claim C10)

`StreamServer.handle_srt_save` (lines 415-443). The recordings directory
and its `history/` backup directory are name-content association lists;
the wall-clock backup stamp is a parameter. -/

/-- The parsed JSON body of a save request; the handler reads
`data.get('file', '')` and `data.get('content', '')`. -/
structure SaveRequest where
  file : Option String
  content : Option String
deriving DecidableEq, Repr

/-- On-disk state visible to the save handler. -/
structure RecordingsFs where
  recordings : List (String × String)
  history : List (String × String)
deriving DecidableEq, Repr

/-- JSON reply of `handle_srt_save` with its HTTP status. -/
structure SaveResponse where
  status : Nat
  success : Bool
  message : String
deriving DecidableEq, Repr

/-- `write_text`: overwrite an existing entry or create the file. -/
def fsWrite (name content : String) (l : List (String × String)) :
    List (String × String) :=
  if (l.lookup name).isSome then
    l.map (fun p => if p.1 = name then (name, content) else p)
  else l ++ [(name, content)]

/-- `handle_srt_save`: a missing or empty `file`, then an empty `content`,
raise `ValueError`, answered as a 400 JSON failure before any file-system
access; otherwise the existing file (if any) is first copied to
`history/<name>.<stamp>` and then overwritten with the new content. -/
def handle_srt_save (req : SaveRequest) (nowStamp : String)
    (st : RecordingsFs) : SaveResponse × RecordingsFs :=
  let filename := req.file.getD ""
  let content := req.content.getD ""
  if filename = "" then
    ({ status := 400, success := false
       message := "File parameter is required" }, st)
  else if content = "" then
    ({ status := 400, success := false
       message := "Content parameter is required" }, st)
  else
    let name := List.asString (pyBasename filename.toList)
    let st1 :=
      match st.recordings.lookup name with
      | some old =>
        { st with history := st.history ++ [(name ++ "." ++ nowStamp, old)] }
      | none => st
    ({ status := 200, success := true, message := "Saved successfully" },
      { st1 with recordings := fsWrite name content st1.recordings })

/-- C10. A save request with a missing/empty file name or an empty content
is rejected with a 400 failure response, and in that case nothing is
written and no backup is made: the on-disk state is returned unchanged. -/
theorem srt_save_reject_spec (req : SaveRequest) (nowStamp : String)
    (st : RecordingsFs)
    (h : req.file.getD "" = "" ∨ req.content.getD "" = "") :
    (handle_srt_save req nowStamp st).2 = st ∧
    (handle_srt_save req nowStamp st).1.status = 400 ∧
    (handle_srt_save req nowStamp st).1.success = false := by
  unfold handle_srt_save
  rcases h with h | h
  · simp [h]
  · by_cases h1 : req.file.getD "" = ""
    · simp [h1]
    · simp [h1, h]

/-- Witness for C10: a save with empty content leaves a one-file
directory untouched and reports a 400 failure. -/
theorem srt_save_reject_spec_witness :
    (handle_srt_save { file := some "a.srt", content := some "" }
        "2026-10-12_000000"
        { recordings := [("a.srt", "old")], history := [] }).2 =
      { recordings := [("a.srt", "old")], history := [] } ∧
    (handle_srt_save { file := some "a.srt", content := some "" }
        "2026-10-12_000000"
        { recordings := [("a.srt", "old")], history := [] }).1.status =
      400 ∧
    (handle_srt_save { file := some "a.srt", content := some "" }
        "2026-10-12_000000"
        { recordings := [("a.srt", "old")], history := [] }).1.success =
      false :=
  srt_save_reject_spec { file := some "a.srt", content := some "" }
    "2026-10-12_000000" { recordings := [("a.srt", "old")], history := [] }
    (Or.inr (by decide))
